import Mathlib

/-!
Verification development for the BlackJackApp repository.

The Python sources (`src/blackjack.py` and the console variant) are embedded
shallowly: card ranks become integers 2..11, the mutable shoe becomes a list
of in-range cards threaded through the functions, and the global random
number generator becomes an explicit tape `g : Nat -> Nat` together with a
running position `k`; each random call reads `g k` and advances to `k + 1`.
Fallible Python code (`raise ValueError`, `raise RuntimeError`) is embedded
with `Except BJError`.
-/

namespace BJ

/-- The three advisor actions, mirroring `class Action(Enum)`. -/
inductive Action where
  | HIT
  | STAND
  | DOUBLE
deriving DecidableEq, Repr

/-- Python exceptions raised by the embedded code: `ValueError` (validation)
and `RuntimeError` (empty shoe). -/
inductive BJError where
  | valueError (msg : String)
  | runtimeError (msg : String)
deriving DecidableEq, Repr

deriving instance DecidableEq for Except

/-- A card rank: an integer in 2..11, 11 denoting an Ace. -/
abbrev Card := {c : Int // 2 ≤ c ∧ c ≤ 11}

/-- The 52 rank values of one deck, in the order `build_shoe` lays them out:
four each of 2..9, sixteen 10-valued cards, four Aces. -/
def deckValues : List Int :=
  List.replicate 4 2 ++ List.replicate 4 3 ++ List.replicate 4 4 ++
  List.replicate 4 5 ++ List.replicate 4 6 ++ List.replicate 4 7 ++
  List.replicate 4 8 ++ List.replicate 4 9 ++ List.replicate 16 10 ++
  List.replicate 4 11

theorem deckValues_mem_bounds : ∀ c ∈ deckValues, 2 ≤ c ∧ c ≤ 11 := by decide

/-- One deck as a list of `Card`s. -/
def deckCards : List Card :=
  deckValues.pmap (fun c h => (⟨c, h⟩ : Card)) deckValues_mem_bounds

/-- Embeds `build_shoe(num_decks)`: `num_decks` copies of the fixed deck. -/
def build_shoe (num_decks : Int) : List Card :=
  (List.replicate num_decks.toNat deckCards).flatten

/-- Remove the first occurrence of value `v` from the shoe (Python
`list.remove`, with the absent case a no-op as in `remove_known_cards`). -/
def eraseValue : List Card → Int → List Card
  | [], _ => []
  | c :: rest, v => if c.val = v then rest else c :: eraseValue rest v

/-- Embeds `remove_known_cards(shoe, known_cards)`: remove each known value
once, silently skipping values not present (`except ValueError: pass`). -/
def remove_known_cards (shoe : List Card) (known_cards : List Int) : List Card :=
  known_cards.foldl eraseValue shoe

/-- Number of occurrences of rank `v` in a shoe. -/
def shoeCount (v : Int) (shoe : List Card) : Nat :=
  (shoe.map Subtype.val).count v

/-- Embeds `draw_from_shoe(shoe)`: raises `RuntimeError` on an empty shoe,
otherwise removes a randomly selected card (the tape value `r` chooses the
position) and returns it. -/
def draw_from_shoe (shoe : List Card) (r : Nat) : Except BJError (Card × List Card) :=
  if shoe.isEmpty then .error (.runtimeError "Shoe is empty")
  else
    let card := shoe.getD (r % shoe.length) ⟨2, by decide⟩
    .ok (card, eraseValue shoe card.val)

/-- Embeds `_draw_card()`: an infinite-deck weighted draw. The weighted
choice over ranks 2..11 with weights 4,4,4,4,4,4,4,4,16,4 is realised as a
uniform pick from the 52-element population `deckCards`. -/
def _draw_card (g : Nat → Nat) (k : Nat) : Card × Nat :=
  (deckCards.getD (g k % 52) ⟨2, by decide⟩, k + 1)

/-- Embeds the `try: draw_from_shoe(shoe) except RuntimeError: _draw_card()`
pattern used at every draw site of the simulator. -/
def drawWithFallback (shoe : List Card) (g : Nat → Nat) (k : Nat) :
    Card × List Card × Nat :=
  match draw_from_shoe shoe (g k) with
  | .ok (c, shoe') => (c, shoe', k + 1)
  | .error _ =>
    let c := _draw_card g k
    (c.1, shoe, c.2)

/-- Embeds `_apply_card(total, is_soft, card)`: prefer counting an Ace as
11 when that does not bust, and convert a busted soft total to hard by
subtracting 10. -/
def _apply_card (total : Int) (is_soft : Bool) (card : Int) : Int × Bool :=
  let step :=
    if card = 11 then
      if total + 11 ≤ 21 then (total + 11, true)
      else (total + 1, is_soft)
    else (total + card, is_soft)
  if step.1 > 21 ∧ step.2 = true then (step.1 - 10, false)
  else (step.1, step.2)

/-- The hand-value update as section 4.2 of the spec words it: an Ace adds
11 and sets `isSoft` when `total + 11 ≤ 21`, otherwise adds 1 leaving
`isSoft` unchanged; any other card adds its face value; afterwards, if the
result exceeds 21 while soft, exactly 10 is subtracted and the flag cleared. -/
def applyCardSpec (total : Int) (isSoft : Bool) (card : Int) : Int × Bool :=
  let step :=
    if card = 11 then
      if total + 11 ≤ 21 then (total + 11, true) else (total + 1, isSoft)
    else (total + card, isSoft)
  if step.1 > 21 ∧ step.2 = true then (step.1 - 10, false) else (step.1, step.2)

/-- The hard-hand branch of `blackjack_advisor` (lines 76-99 of
`blackjack.py`). -/
def hardPath (player_total dealer_card : Int) : Action :=
  if player_total ≤ 8 then .HIT
  else if player_total = 9 then
    (if 3 ≤ dealer_card ∧ dealer_card ≤ 6 then .DOUBLE else .HIT)
  else if player_total = 10 ∨ player_total = 11 then
    (if player_total = 11 then
      (if dealer_card ≤ 10 then .DOUBLE else .HIT)
     else (if dealer_card ≤ 9 then .DOUBLE else .HIT))
  else if 12 ≤ player_total ∧ player_total ≤ 16 then
    (if dealer_card ≤ 6 then
      (if player_total = 12 ∧ (dealer_card = 2 ∨ dealer_card = 3) then .HIT
       else .STAND)
     else .HIT)
  else if 17 ≤ player_total then .STAND
  else .HIT

/-- The strategy chain of `blackjack_advisor` after its input validation. -/
def advisorCore (player_total dealer_card : Int) (is_soft_hand : Bool) : Action :=
  if is_soft_hand then
    if player_total ≤ 17 then
      if player_total = 13 ∨ player_total = 14 then
        (if 5 ≤ dealer_card ∧ dealer_card ≤ 6 then .DOUBLE else .HIT)
      else if player_total = 15 ∨ player_total = 16 then
        (if 4 ≤ dealer_card ∧ dealer_card ≤ 6 then .DOUBLE else .HIT)
      else if player_total = 17 then
        (if 3 ≤ dealer_card ∧ dealer_card ≤ 6 then .DOUBLE else .HIT)
      else hardPath player_total dealer_card
    else if player_total = 18 then
      (if dealer_card = 2 ∨ dealer_card = 7 ∨ dealer_card = 8 then .STAND
       else if 3 ≤ dealer_card ∧ dealer_card ≤ 6 then .DOUBLE
       else .HIT)
    else .STAND
  else hardPath player_total dealer_card

/-- Embeds `blackjack_advisor(player_total, dealer_card, is_soft_hand)` from
`blackjack.py`, including its two `ValueError` validations. -/
def blackjack_advisor (player_total dealer_card : Int) (is_soft_hand : Bool) :
    Except BJError Action :=
  if ¬(4 ≤ player_total ∧ player_total ≤ 21) then
    .error (.valueError "player_total must be between 4 and 21")
  else if ¬(2 ≤ dealer_card ∧ dealer_card ≤ 11) then
    .error (.valueError "dealer_card must be between 2 and 11 (11 = Ace)")
  else .ok (advisorCore player_total dealer_card is_soft_hand)

/-- The fixed decision table exactly as claim C2 and section 4.1 of the spec
state it, used as the reference for the refinement proof. -/
def specDecide (total dealer : Int) (isSoft : Bool) : Action :=
  if isSoft ∧ 13 ≤ total ∧ total ≤ 14 then
    (if 5 ≤ dealer ∧ dealer ≤ 6 then .DOUBLE else .HIT)
  else if isSoft ∧ 15 ≤ total ∧ total ≤ 16 then
    (if 4 ≤ dealer ∧ dealer ≤ 6 then .DOUBLE else .HIT)
  else if isSoft ∧ total = 17 then
    (if 3 ≤ dealer ∧ dealer ≤ 6 then .DOUBLE else .HIT)
  else if isSoft ∧ total = 18 then
    (if dealer = 2 ∨ dealer = 7 ∨ dealer = 8 then .STAND
     else if 3 ≤ dealer ∧ dealer ≤ 6 then .DOUBLE
     else .HIT)
  else if isSoft ∧ 19 ≤ total then .STAND
  else if total ≤ 8 then .HIT
  else if total = 9 then (if 3 ≤ dealer ∧ dealer ≤ 6 then .DOUBLE else .HIT)
  else if total = 10 then (if dealer ≤ 9 then .DOUBLE else .HIT)
  else if total = 11 then (if dealer ≤ 10 then .DOUBLE else .HIT)
  else if 12 ≤ total ∧ total ≤ 16 then
    (if dealer ≤ 6 then
      (if total = 12 ∧ (dealer = 2 ∨ dealer = 3) then .HIT else .STAND)
     else .HIT)
  else .STAND

/-- Embeds `compute_total_and_soft(cards)`: fold `_apply_card` over the hand
starting from `(0, False)`. -/
def compute_total_and_soft (cards : List Int) : Int × Bool :=
  cards.foldl (fun ts c => _apply_card ts.1 ts.2 c) (0, false)

/-- The dealer loop guard `d_total < 17 or (d_total == 17 and d_soft)`. -/
def dealerShouldHit (t : Int) (s : Bool) : Bool :=
  decide (t < 17) || (decide (t = 17) && s)

/-- Termination measure for the hit loops, a function of `(total, isSoft)`:
soft hands first harden (total may stay put or drop while the flag clears),
after which the total strictly grows, so soft states are weighted above hard
states near the same total. -/
def loopMeasure (t : Int) (s : Bool) : Nat :=
  if s then (43 - t).toNat else (2 * (22 - t)).toNat

/-- The player hit loop of the simulator (`while action == Action.HIT and
total < 22: ...`), with explicit fuel so that the definition is structural;
`loopMeasure` proves the fuel is never exhausted from `loopMeasure t s + 1`. -/
def player_hit_loopF (fuel : Nat) (action : Action) (t : Int) (s : Bool)
    (dealer_upcard : Int) (shoe : List Card) (g : Nat → Nat) (k : Nat) :
    Except BJError (Int × Bool × List Card × Nat) :=
  match fuel with
  | 0 => .ok (t, s, shoe, k)
  | fuel' + 1 =>
    if action = .HIT ∧ t < 22 then
      let dcr := drawWithFallback shoe g k
      let ts := _apply_card t s dcr.1.val
      if ts.1 > 21 then .ok (ts.1, ts.2, dcr.2.1, dcr.2.2)
      else
        match blackjack_advisor ts.1 dealer_upcard ts.2 with
        | .error e => .error e
        | .ok a' => player_hit_loopF fuel' a' ts.1 ts.2 dealer_upcard dcr.2.1 g dcr.2.2
    else .ok (t, s, shoe, k)

/-- The player hit loop, run with provably sufficient fuel. -/
def player_hit_loop (action : Action) (t : Int) (s : Bool)
    (dealer_upcard : Int) (shoe : List Card) (g : Nat → Nat) (k : Nat) :
    Except BJError (Int × Bool × List Card × Nat) :=
  player_hit_loopF (loopMeasure t s + 1) action t s dealer_upcard shoe g k

/-- The dealer drawing loop (`while d_total < 17 or (d_total == 17 and
d_soft): ...`), with explicit fuel. -/
def dealer_loopF (fuel : Nat) (t : Int) (s : Bool) (shoe : List Card)
    (g : Nat → Nat) (k : Nat) : Int × Bool × List Card × Nat :=
  match fuel with
  | 0 => (t, s, shoe, k)
  | fuel' + 1 =>
    if dealerShouldHit t s then
      let dcr := drawWithFallback shoe g k
      let ts := _apply_card t s dcr.1.val
      dealer_loopF fuel' ts.1 ts.2 dcr.2.1 g dcr.2.2
    else (t, s, shoe, k)

/-- The dealer drawing loop, run with provably sufficient fuel. -/
def dealer_loop (t : Int) (s : Bool) (shoe : List Card) (g : Nat → Nat)
    (k : Nat) : Int × Bool × List Card × Nat :=
  dealer_loopF (loopMeasure t s + 1) t s shoe g k

/-- One player's turn inside a trial: initial advisor consultation, then the
Double branch (one draw, stop) or the hit loop; returns `(busted, total)`. -/
def play_hand (hand : List Int) (dealer_upcard : Int) (shoe : List Card)
    (g : Nat → Nat) (k : Nat) :
    Except BJError ((Bool × Int) × List Card × Nat) :=
  let ts := compute_total_and_soft hand
  match blackjack_advisor ts.1 dealer_upcard ts.2 with
  | .error e => .error e
  | .ok a =>
    if a = .DOUBLE then
      let dcr := drawWithFallback shoe g k
      let ts' := _apply_card ts.1 ts.2 dcr.1.val
      .ok ((ts'.1 > 21, ts'.1), dcr.2.1, dcr.2.2)
    else
      match player_hit_loop a ts.1 ts.2 dealer_upcard shoe g k with
      | .error e => .error e
      | .ok (t, _, shoe', k') => .ok ((t > 21, t), shoe', k')

/-- All players of one trial, in input order, threading the shoe. -/
def play_players (hands : List (List Int)) (dealer_upcard : Int)
    (shoe : List Card) (g : Nat → Nat) (k : Nat) :
    Except BJError (List (Bool × Int) × List Card × Nat) :=
  match hands with
  | [] => .ok ([], shoe, k)
  | hand :: rest =>
    match play_hand hand dealer_upcard shoe g k with
    | .error e => .error e
    | .ok (res, shoe', k') =>
      match play_players rest dealer_upcard shoe' g k' with
      | .error e => .error e
      | .ok (ress, shoe'', k'') => .ok (res :: ress, shoe'', k'')

/-- One Monte Carlo trial: copy the shoe, remove the known cards, draw the
dealer's hidden card, play every player, then play the dealer from
`(upcard, hidden)`.  Returns the player results, the dealer's final total,
the hidden card, and the advanced tape position. -/
def run_trial (players_hands : List (List Int)) (dealer_upcard : Int)
    (base_shoe : List Card) (known : List Int) (g : Nat → Nat) (k : Nat) :
    Except BJError (List (Bool × Int) × Int × Int × Nat) :=
  let shoe0 := remove_known_cards base_shoe known
  let hcr := drawWithFallback shoe0 g k
  match play_players players_hands dealer_upcard hcr.2.1 g hcr.2.2 with
  | .error e => .error e
  | .ok (pres, shoe2, k2) =>
    let d0 := _apply_card dealer_upcard (decide (dealer_upcard = 11)) hcr.1.val
    let dres := dealer_loop d0.1 d0.2 shoe2 g k2
    .ok (pres, dres.1, hcr.1.val, dres.2.2.2)

/-- Per-player outcome counters (`wins[i]`, `pushes[i]`, `losses[i]`). -/
structure Tally where
  wins : Nat
  pushes : Nat
  losses : Nat
deriving DecidableEq, Repr

/-- Scoring one player against the dealer's final total (the trial's
`if busted ... elif d_total > 21 ...` chain). -/
def score_one (d_total : Int) (pr : Bool × Int) (ta : Tally) : Tally :=
  if pr.1 then { ta with losses := ta.losses + 1 }
  else if d_total > 21 then { ta with wins := ta.wins + 1 }
  else if d_total < pr.2 then { ta with wins := ta.wins + 1 }
  else if d_total = pr.2 then { ta with pushes := ta.pushes + 1 }
  else { ta with losses := ta.losses + 1 }

/-- The aggregator's accumulating counters: per-player tallies, the
`dealer_totals` Counter, the `hidden_card_counts` Counter (Counters are
multisets of recorded keys), and the tape position. -/
structure SimState where
  tallies : List Tally
  dealer_totals : Multiset Int
  hidden_card_counts : Multiset Int
  k : Nat

/-- The `for _ in range(simulations)` loop: run one trial, fold its results
into the counters, recurse. -/
def run_trials (players_hands : List (List Int)) (dealer_upcard : Int)
    (base_shoe : List Card) (known : List Int) (g : Nat → Nat) :
    Nat → SimState → Except BJError SimState
  | 0, st => .ok st
  | n + 1, st =>
    match run_trial players_hands dealer_upcard base_shoe known g st.k with
    | .error e => .error e
    | .ok (pres, dt, hid, k') =>
      run_trials players_hands dealer_upcard base_shoe known g n
        { tallies := List.zipWith (score_one dt) pres st.tallies
          dealer_totals := dt ::ₘ st.dealer_totals
          hidden_card_counts := hid ::ₘ st.hidden_card_counts
          k := k' }

/-- Embeds `estimate_win_probabilities_multi(players_hands, dealer_upcard,
num_decks, simulations)` from `blackjack.py`: validation, the trial loop,
then the per-player counters divided by `simulations`; the two Counters are
returned as accumulated. -/
def estimate_win_probabilities_multi (players_hands : List (List Int))
    (dealer_upcard : Int) (num_decks : Int) (simulations : Int)
    (g : Nat → Nat) :
    Except BJError (List (ℚ × ℚ × ℚ) × Multiset Int × Multiset Int) :=
  if num_decks ≤ 0 then
    .error (.valueError "num_decks must be >= 1 for finite-shoe simulation")
  else if simulations ≤ 0 then
    .error (.valueError "simulations must be > 0")
  else
    let base_shoe := build_shoe num_decks
    let known := dealer_upcard :: players_hands.flatten
    let init : SimState :=
      { tallies := players_hands.map (fun _ => ⟨0, 0, 0⟩)
        dealer_totals := 0
        hidden_card_counts := 0
        k := 0 }
    match run_trials players_hands dealer_upcard base_shoe known g
        simulations.toNat init with
    | .error e => .error e
    | .ok st =>
      .ok (st.tallies.map (fun ta =>
            ((ta.wins : ℚ) / (simulations : ℚ),
             (ta.pushes : ℚ) / (simulations : ℚ),
             (ta.losses : ℚ) / (simulations : ℚ))),
           st.dealer_totals, st.hidden_card_counts)

/-- Detects the `RuntimeError` kind of exception. -/
def isRuntimeBJ : BJError → Bool
  | .runtimeError _ => true
  | .valueError _ => false

/-- Detects a surfaced `RuntimeError` in a result. -/
def isRuntimeErr {α : Type} : Except BJError α → Bool
  | .error e => isRuntimeBJ e
  | .ok _ => false

/-- Sum of one player's outcome counters. -/
def tallySum (ta : Tally) : Nat := ta.wins + ta.pushes + ta.losses

/-!
Basic lemmas about the hand-value engine and the loops.
-/

/-- The soft flag returned by `_apply_card` certifies a non-busted total. -/
theorem apply_card_soft_le (t : Int) (s : Bool) (c : Int) :
    (_apply_card t s c).2 = true → (_apply_card t s c).1 ≤ 21 := by
  unfold _apply_card
  dsimp only
  split_ifs with h1 h2 h3 <;> intro hs <;> simp_all

/-- `compute_total_and_soft` never reports a soft busted hand. -/
theorem compute_total_soft_le (cards : List Int) :
    (compute_total_and_soft cards).2 = true → (compute_total_and_soft cards).1 ≤ 21 := by
  unfold compute_total_and_soft
  suffices h : ∀ (l : List Int) (t : Int) (s : Bool), (s = true → t ≤ 21) →
      ((l.foldl (fun ts c => _apply_card ts.1 ts.2 c) (t, s)).2 = true →
       (l.foldl (fun ts c => _apply_card ts.1 ts.2 c) (t, s)).1 ≤ 21) by
    exact h cards 0 false (by simp)
  intro l
  induction l with
  | nil => intro t s h; simpa using h
  | cons c cs ih =>
    intro t s _
    simpa using ih (_apply_card t s c).1 (_apply_card t s c).2 (apply_card_soft_le t s c)

/-- Applying a card with face value 2..11 to a pre-draw total below 22
strictly decreases `loopMeasure`: the termination argument shared by the
player hit loop and the dealer loop. -/
theorem apply_card_measure_lt (t : Int) (s : Bool) (c : Int)
    (h2 : 2 ≤ c) (h11 : c ≤ 11) (ht : t < 22) :
    loopMeasure (_apply_card t s c).1 (_apply_card t s c).2 < loopMeasure t s := by
  unfold _apply_card loopMeasure
  dsimp only
  split_ifs with h1 hA hB <;> simp_all <;> omega

/-- Any fuel above `loopMeasure` computes the same player hit loop result,
so the fuel parameter is only a guise for well-founded recursion on
`loopMeasure`. -/
theorem player_hit_loopF_fuel_irrel :
    ∀ (f1 f2 : Nat) (a : Action) (t : Int) (s : Bool) (d : Int)
      (shoe : List Card) (g : Nat → Nat) (k : Nat),
      loopMeasure t s < f1 → loopMeasure t s < f2 →
      player_hit_loopF f1 a t s d shoe g k = player_hit_loopF f2 a t s d shoe g k := by
  intro f1
  induction f1 with
  | zero => intro f2 a t s d shoe g k h1 _; omega
  | succ n ih =>
    intro f2 a t s d shoe g k h1 h2
    match f2 with
    | 0 => omega
    | m + 1 =>
      unfold player_hit_loopF
      dsimp only
      split_ifs with hg hb
      · rfl
      · set dcr := drawWithFallback shoe g k with hdcr
        have hc := dcr.1.2
        have hlt : loopMeasure (_apply_card t s dcr.1.val).1 (_apply_card t s dcr.1.val).2 <
            loopMeasure t s :=
          apply_card_measure_lt t s dcr.1.val hc.1 hc.2 hg.2
        cases hadv : blackjack_advisor (_apply_card t s dcr.1.val).1 d (_apply_card t s dcr.1.val).2 with
        | error e => rfl
        | ok a' => exact ih m a' _ _ d dcr.2.1 g dcr.2.2 (by omega) (by omega)
      · rfl

/-- The Boolean dealer guard agrees with the rule
`total < 17 or (total == 17 and isSoft)`. -/
theorem dealerShouldHit_iff (t : Int) (s : Bool) :
    dealerShouldHit t s = true ↔ (t < 17 ∨ (t = 17 ∧ s = true)) := by
  unfold dealerShouldHit
  cases s <;> simp

/-- Every draw advances the random tape position by exactly one. -/
theorem drawWithFallback_k (shoe : List Card) (g : Nat → Nat) (k : Nat) :
    (drawWithFallback shoe g k).2.2 = k + 1 := by
  unfold drawWithFallback
  cases h : draw_from_shoe shoe (g k) with
  | error e => rfl
  | ok v => obtain ⟨c, sh⟩ := v; rfl

/-- With sufficient fuel, the dealer loop returns a state on which the
guard is false: the dealer never stops while obliged to draw. -/
theorem dealer_loopF_stops :
    ∀ (fuel : Nat) (t : Int) (s : Bool) (shoe : List Card) (g : Nat → Nat) (k : Nat),
      loopMeasure t s < fuel →
      dealerShouldHit (dealer_loopF fuel t s shoe g k).1
        (dealer_loopF fuel t s shoe g k).2.1 = false := by
  intro fuel
  induction fuel with
  | zero => intro t s shoe g k h; omega
  | succ n ih =>
    intro t s shoe g k h
    unfold dealer_loopF
    dsimp only
    by_cases hgd : dealerShouldHit t s = true
    · simp only [hgd, if_true]
      set dcr := drawWithFallback shoe g k with hdcr
      have hc := dcr.1.2
      have ht : t < 22 := by
        rcases (dealerShouldHit_iff t s).mp hgd with h17 | ⟨h17, _⟩ <;> omega
      have hlt := apply_card_measure_lt t s dcr.1.val hc.1 hc.2 ht
      exact ih _ _ dcr.2.1 g dcr.2.2 (by omega)
    · rw [Bool.not_eq_true] at hgd
      simp [hgd]

/-- The dealer loop never rewinds the tape position. -/
theorem dealer_loopF_k_le :
    ∀ (fuel : Nat) (t : Int) (s : Bool) (shoe : List Card) (g : Nat → Nat) (k : Nat),
      k ≤ (dealer_loopF fuel t s shoe g k).2.2.2 := by
  intro fuel
  induction fuel with
  | zero => intro t s shoe g k; exact Nat.le_refl k
  | succ n ih =>
    intro t s shoe g k
    unfold dealer_loopF
    dsimp only
    by_cases hgd : dealerShouldHit t s = true
    · simp only [hgd, if_true]
      have h1 := ih (_apply_card t s (drawWithFallback shoe g k).1.val).1
        (_apply_card t s (drawWithFallback shoe g k).1.val).2
        (drawWithFallback shoe g k).2.1 g (drawWithFallback shoe g k).2.2
      have h2 := drawWithFallback_k shoe g k
      omega
    · rw [Bool.not_eq_true] at hgd
      simp [hgd]

/-- With sufficient fuel, the dealer loop leaves the tape untouched exactly
when the guard already fails on entry: a draw happens iff the rule demands
one. -/
theorem dealer_loopF_pos_iff (fuel : Nat) (t : Int) (s : Bool) (shoe : List Card)
    (g : Nat → Nat) (k : Nat) (h : loopMeasure t s < fuel) :
    ((dealer_loopF fuel t s shoe g k).2.2.2 = k ↔ dealerShouldHit t s = false) := by
  match fuel with
  | 0 => omega
  | n + 1 =>
    unfold dealer_loopF
    dsimp only
    by_cases hgd : dealerShouldHit t s = true
    · have h1 := dealer_loopF_k_le n (_apply_card t s (drawWithFallback shoe g k).1.val).1
        (_apply_card t s (drawWithFallback shoe g k).1.val).2
        (drawWithFallback shoe g k).2.1 g (drawWithFallback shoe g k).2.2
      have h2 := drawWithFallback_k shoe g k
      simp only [hgd, if_true]
      simp [hgd]
      omega
    · rw [Bool.not_eq_true] at hgd
      simp [hgd]

/-!
Error propagation: the only errors the simulator can return are `ValueError`s
from the advisor or the two input validations; every `RuntimeError` raised by
`draw_from_shoe` is caught at its call site.
-/

theorem advisor_error (t d : Int) (s : Bool) (e : BJError)
    (h : blackjack_advisor t d s = .error e) : isRuntimeBJ e = false := by
  unfold blackjack_advisor at h
  split_ifs at h <;> cases h <;> rfl

theorem player_hit_loopF_error :
    ∀ (f : Nat) (a : Action) (t : Int) (s : Bool) (d : Int)
      (shoe : List Card) (g : Nat → Nat) (k : Nat) (e : BJError),
      player_hit_loopF f a t s d shoe g k = .error e → isRuntimeBJ e = false := by
  intro f
  induction f with
  | zero => intro a t s d shoe g k e h; cases h
  | succ n ih =>
    intro a t s d shoe g k e h
    unfold player_hit_loopF at h
    dsimp only at h
    split_ifs at h with hg hb
    cases hadv : blackjack_advisor (_apply_card t s (drawWithFallback shoe g k).1.val).1 d
        (_apply_card t s (drawWithFallback shoe g k).1.val).2 with
    | error e' =>
      rw [hadv] at h
      dsimp only at h
      cases h
      exact advisor_error _ d _ _ hadv
    | ok a' =>
      rw [hadv] at h
      dsimp only at h
      exact ih a' _ _ d _ g _ e h

theorem play_hand_error (hand : List Int) (d : Int) (shoe : List Card)
    (g : Nat → Nat) (k : Nat) (e : BJError)
    (h : play_hand hand d shoe g k = .error e) : isRuntimeBJ e = false := by
  unfold play_hand at h
  dsimp only at h
  cases hadv : blackjack_advisor (compute_total_and_soft hand).1 d (compute_total_and_soft hand).2 with
  | error e' =>
    rw [hadv] at h
    dsimp only at h
    cases h
    exact advisor_error _ d _ _ hadv
  | ok a =>
    rw [hadv] at h
    dsimp only at h
    split_ifs at h with hd
    unfold player_hit_loop at h
    cases hloop : player_hit_loopF
        (loopMeasure (compute_total_and_soft hand).1 (compute_total_and_soft hand).2 + 1)
        a (compute_total_and_soft hand).1 (compute_total_and_soft hand).2 d shoe g k with
    | error e' =>
      rw [hloop] at h
      dsimp only at h
      cases h
      exact player_hit_loopF_error _ a _ _ d shoe g k _ hloop
    | ok v =>
      rw [hloop] at h
      obtain ⟨tv, sv, shv, kv⟩ := v
      dsimp only at h
      cases h

theorem play_players_error :
    ∀ (hands : List (List Int)) (d : Int) (shoe : List Card) (g : Nat → Nat)
      (k : Nat) (e : BJError),
      play_players hands d shoe g k = .error e → isRuntimeBJ e = false := by
  intro hands
  induction hands with
  | nil => intro d shoe g k e h; cases h
  | cons hand rest ih =>
    intro d shoe g k e h
    unfold play_players at h
    cases hh : play_hand hand d shoe g k with
    | error e' =>
      rw [hh] at h
      dsimp only at h
      cases h
      exact play_hand_error hand d shoe g k _ hh
    | ok v =>
      obtain ⟨res, shoe', k'⟩ := v
      rw [hh] at h
      dsimp only at h
      cases hr : play_players rest d shoe' g k' with
      | error e' =>
        rw [hr] at h
        dsimp only at h
        cases h
        exact ih d shoe' g k' _ hr
      | ok w =>
        obtain ⟨ress, shoe'', k''⟩ := w
        rw [hr] at h
        dsimp only at h
        cases h

theorem run_trial_error (players : List (List Int)) (d : Int)
    (base : List Card) (known : List Int) (g : Nat → Nat) (k : Nat) (e : BJError)
    (h : run_trial players d base known g k = .error e) : isRuntimeBJ e = false := by
  unfold run_trial at h
  dsimp only at h
  cases hp : play_players players d
      (drawWithFallback (remove_known_cards base known) g k).2.1 g
      (drawWithFallback (remove_known_cards base known) g k).2.2 with
  | error e' =>
    rw [hp] at h
    dsimp only at h
    cases h
    exact play_players_error players d _ g _ _ hp
  | ok v =>
    obtain ⟨pres, shoe2, k2⟩ := v
    rw [hp] at h
    dsimp only at h
    cases h

theorem run_trials_error :
    ∀ (n : Nat) (players : List (List Int)) (d : Int) (base : List Card)
      (known : List Int) (g : Nat → Nat) (st : SimState) (e : BJError),
      run_trials players d base known g n st = .error e → isRuntimeBJ e = false := by
  intro n
  induction n with
  | zero => intro players d base known g st e h; cases h
  | succ m ih =>
    intro players d base known g st e h
    unfold run_trials at h
    cases ht : run_trial players d base known g st.k with
    | error e' =>
      rw [ht] at h
      dsimp only at h
      cases h
      exact run_trial_error players d base known g st.k _ ht
    | ok v =>
      obtain ⟨pres, dt, hid, k'⟩ := v
      rw [ht] at h
      dsimp only at h
      exact ih players d base known g _ _ h

theorem estimate_error (players : List (List Int)) (upcard num_decks simulations : Int)
    (g : Nat → Nat) (e : BJError)
    (h : estimate_win_probabilities_multi players upcard num_decks simulations g = .error e) :
    isRuntimeBJ e = false := by
  unfold estimate_win_probabilities_multi at h
  split_ifs at h with h1 h2
  · cases h; rfl
  · cases h; rfl
  · dsimp only at h
    cases hr : run_trials players upcard (build_shoe num_decks) (upcard :: players.flatten) g
        simulations.toNat
        { tallies := players.map (fun _ => ⟨0, 0, 0⟩), dealer_totals := 0,
          hidden_card_counts := 0, k := 0 } with
    | error e' =>
      rw [hr] at h
      dsimp only at h
      cases h
      exact run_trials_error simulations.toNat players upcard _ _ g _ _ hr
    | ok st =>
      rw [hr] at h
      dsimp only at h
      cases h

theorem isRuntimeErr_estimate (players : List (List Int)) (upcard num_decks simulations : Int)
    (g : Nat → Nat) :
    isRuntimeErr (estimate_win_probabilities_multi players upcard num_decks simulations g) = false := by
  cases h : estimate_win_probabilities_multi players upcard num_decks simulations g with
  | error e =>
    have := estimate_error players upcard num_decks simulations g e h
    simp [isRuntimeErr, this]
  | ok v => simp [isRuntimeErr]

/-!
Shoe removal lemmas: `remove_known_cards` as multiset subtraction.
-/

theorem map_eraseValue (shoe : List Card) (w : Int) :
    (eraseValue shoe w).map Subtype.val = (shoe.map Subtype.val).erase w := by
  induction shoe with
  | nil => rfl
  | cons c rest ih =>
    by_cases hc : c.val = w
    · simp [eraseValue, hc, List.erase_cons]
    · simp [eraseValue, hc, List.erase_cons, ih]

theorem shoeCount_eraseValue (shoe : List Card) (w v : Int) :
    shoeCount v (eraseValue shoe w) = shoeCount v shoe - (if v = w then 1 else 0) := by
  unfold shoeCount
  rw [map_eraseValue, List.count_erase]
  simp only [beq_iff_eq]
  split_ifs <;> omega

theorem shoeCount_remove_known :
    ∀ (known : List Int) (shoe : List Card) (v : Int),
      shoeCount v (remove_known_cards shoe known) = shoeCount v shoe - known.count v := by
  intro known
  induction known with
  | nil => intro shoe v; simp [remove_known_cards]
  | cons x xs ih =>
    intro shoe v
    have h1 : remove_known_cards shoe (x :: xs) = remove_known_cards (eraseValue shoe x) xs := rfl
    rw [h1, ih, shoeCount_eraseValue]
    by_cases hv : v = x
    · subst hv
      simp [List.count_cons]
      omega
    · simp [List.count_cons, hv]

theorem eraseValue_not_mem :
    ∀ (shoe : List Card) (w : Int), (∀ c ∈ shoe, c.val ≠ w) → eraseValue shoe w = shoe := by
  intro shoe
  induction shoe with
  | nil => intro w h; rfl
  | cons c rest ih =>
    intro w h
    have hc : c.val ≠ w := h c (List.mem_cons_self c rest)
    simp only [eraseValue, hc, if_false]
    rw [ih w (fun x hx => h x (List.mem_cons_of_mem c hx))]

theorem remove_known_noop :
    ∀ (known : List Int) (shoe : List Card),
      (∀ c ∈ shoe, c.val ∉ known) → remove_known_cards shoe known = shoe := by
  intro known
  induction known with
  | nil => intro shoe h; rfl
  | cons x xs ih =>
    intro shoe h
    have h1 : remove_known_cards shoe (x :: xs) = remove_known_cards (eraseValue shoe x) xs := rfl
    rw [h1, eraseValue_not_mem shoe x (fun c hc => by
      have := h c hc
      simp only [List.mem_cons, not_or] at this
      exact this.1)]
    exact ih shoe (fun c hc => by
      have := h c hc
      simp only [List.mem_cons, not_or] at this
      exact this.2)

/-!
Aggregator counting invariants.
-/

theorem play_players_length :
    ∀ (hands : List (List Int)) (d : Int) (shoe : List Card) (g : Nat → Nat)
      (k : Nat) (pres : List (Bool × Int)) (shoe' : List Card) (k' : Nat),
      play_players hands d shoe g k = .ok (pres, shoe', k') →
      pres.length = hands.length := by
  intro hands
  induction hands with
  | nil =>
    intro d shoe g k pres shoe' k' h
    cases h
    rfl
  | cons hand rest ih =>
    intro d shoe g k pres shoe' k' h
    unfold play_players at h
    cases hh : play_hand hand d shoe g k with
    | error e => rw [hh] at h; cases h
    | ok v =>
      obtain ⟨res, shoe1, k1⟩ := v
      rw [hh] at h
      dsimp only at h
      cases hr : play_players rest d shoe1 g k1 with
      | error e => rw [hr] at h; cases h
      | ok w =>
        obtain ⟨ress, shoe2, k2⟩ := w
        rw [hr] at h
        dsimp only at h
        cases h
        simp only [List.length_cons]
        rw [ih d shoe1 g k1 ress _ _ hr]

theorem score_one_sum (dt : Int) (pr : Bool × Int) (ta : Tally) :
    tallySum (score_one dt pr ta) = tallySum ta + 1 := by
  unfold score_one tallySum
  split_ifs <;> simp <;> omega

theorem zipWith_score_sums :
    ∀ (pres : List (Bool × Int)) (tallies : List Tally) (dt : Int),
      pres.length = tallies.length →
      (List.zipWith (score_one dt) pres tallies).map tallySum =
        tallies.map (fun ta => tallySum ta + 1) := by
  intro pres
  induction pres with
  | nil =>
    intro tallies dt h
    cases tallies with
    | nil => rfl
    | cons ta rest => simp at h
  | cons pr prest ih =>
    intro tallies dt h
    cases tallies with
    | nil => simp at h
    | cons ta rest =>
      simp only [List.zipWith_cons_cons, List.map_cons, score_one_sum]
      simp only [List.length_cons] at h
      rw [ih rest dt (by omega)]

theorem run_trials_spec :
    ∀ (n : Nat) (players : List (List Int)) (d : Int) (base : List Card)
      (known : List Int) (g : Nat → Nat) (st st' : SimState),
      run_trials players d base known g n st = .ok st' →
      st.tallies.length = players.length →
      (st'.tallies.length = players.length ∧
       st'.tallies.map tallySum = (st.tallies.map tallySum).map (fun x => x + n) ∧
       Multiset.card st'.dealer_totals = Multiset.card st.dealer_totals + n ∧
       Multiset.card st'.hidden_card_counts = Multiset.card st.hidden_card_counts + n) := by
  intro n
  induction n with
  | zero =>
    intro players d base known g st st' h hlen
    cases h
    simp [hlen]
  | succ m ih =>
    intro players d base known g st st' h hlen
    unfold run_trials at h
    cases ht : run_trial players d base known g st.k with
    | error e => rw [ht] at h; cases h
    | ok v =>
      obtain ⟨pres, dt, hid, k'⟩ := v
      rw [ht] at h
      dsimp only at h
      have hpl : pres.length = players.length := by
        unfold run_trial at ht
        dsimp only at ht
        cases hp : play_players players d
            (drawWithFallback (remove_known_cards base known) g st.k).2.1 g
            (drawWithFallback (remove_known_cards base known) g st.k).2.2 with
        | error e => rw [hp] at ht; cases ht
        | ok w =>
          obtain ⟨pres0, sh2, k2⟩ := w
          rw [hp] at ht
          dsimp only at ht
          cases ht
          exact play_players_length players d _ g _ _ _ _ hp
      have hzlen : (List.zipWith (score_one dt) pres st.tallies).length = players.length := by
        rw [List.length_zipWith, hpl, hlen, Nat.min_self]
      obtain ⟨l1, l2, l3, l4⟩ := ih players d base known g _ st' h hzlen
      refine ⟨l1, ?_, ?_, ?_⟩
      · rw [l2]
        dsimp only
        rw [zipWith_score_sums pres st.tallies dt (by omega)]
        rw [List.map_map, List.map_map]
        apply List.map_congr_left
        intro ta _
        simp [Function.comp]
        omega
      · dsimp only at l3
        rw [l3]
        simp
        omega
      · dsimp only at l4
        rw [l4]
        simp
        omega

theorem estimate_ok_spec (players : List (List Int)) (upcard num_decks simulations : Int)
    (g : Nat → Nat) (out : List (ℚ × ℚ × ℚ) × Multiset Int × Multiset Int)
    (h : estimate_win_probabilities_multi players upcard num_decks simulations g = .ok out) :
    0 < num_decks ∧ 0 < simulations ∧
    Multiset.card out.2.1 = simulations.toNat ∧
    Multiset.card out.2.2 = simulations.toNat ∧
    out.1.length = players.length ∧
    (∀ r ∈ out.1, ∃ w p l : Nat,
        w + p + l = simulations.toNat ∧
        r = ((w : ℚ) / (simulations : ℚ), (p : ℚ) / (simulations : ℚ),
             (l : ℚ) / (simulations : ℚ))) := by
  unfold estimate_win_probabilities_multi at h
  split_ifs at h with h1 h2
  dsimp only at h
  cases hr : run_trials players upcard (build_shoe num_decks) (upcard :: players.flatten) g
      simulations.toNat
      { tallies := players.map (fun _ => ⟨0, 0, 0⟩), dealer_totals := 0,
        hidden_card_counts := 0, k := 0 } with
  | error e => rw [hr] at h; cases h
  | ok st =>
    rw [hr] at h
    dsimp only at h
    cases h
    have hinit : (players.map (fun _ => (⟨0, 0, 0⟩ : Tally))).length = players.length := by
      simp
    obtain ⟨l1, l2, l3, l4⟩ := run_trials_spec simulations.toNat players upcard
      (build_shoe num_decks) (upcard :: players.flatten) g _ st hr hinit
    refine ⟨by omega, by omega, ?_, ?_, ?_, ?_⟩
    · simpa using l3
    · simpa using l4
    · simpa using l1
    · intro r hr0
      simp only [List.mem_map] at hr0
      obtain ⟨ta, hta, hre⟩ := hr0
      refine ⟨ta.wins, ta.pushes, ta.losses, ?_, hre.symm⟩
      have hsum : tallySum ta ∈ st.tallies.map tallySum := List.mem_map_of_mem tallySum hta
      rw [l2] at hsum
      simp only [List.map_map, List.mem_map] at hsum
      obtain ⟨x, hx, hxe⟩ := hsum
      simp only [Function.comp] at hxe
      unfold tallySum at hxe
      dsimp only at hxe
      omega

/-!
Claim theorems.
-/

/-- C2: for every total in [4,21], dealer upcard in [2,11] and any soft
flag, `blackjack_advisor` returns exactly the action of the fixed table of
section 4.1 (here `specDecide`), and — being a function of its three
arguments — it is deterministic and pure. -/
theorem claim_C2_decision_table :
    ∀ t ∈ Finset.Icc (4:ℤ) 21, ∀ d ∈ Finset.Icc (2:ℤ) 11, ∀ s : Bool,
      blackjack_advisor t d s = .ok (specDecide t d s) := by decide

/-- C2 witness: hard 16 against a dealer 10 is decided by the table. -/
theorem claim_C2_witness :
    blackjack_advisor 16 10 false = .ok (specDecide 16 10 false) :=
  claim_C2_decision_table 16 (by decide) 10 (by decide) false


/-- C8: `_apply_card` agrees with the section 4.2 hand-value rule
(`applyCardSpec`); for total ≥ 0 and card in 2..11 the result is never
negative and never below the face value of the card just applied, and an
Ace applied to a hard total ≤ 10 yields `(total + 11, isSoft = true)`. -/
theorem claim_C8_apply_card_conforms (t : Int) (s : Bool) (c : Int)
    (ht : 0 ≤ t) (hc2 : 2 ≤ c) (hc11 : c ≤ 11) :
    _apply_card t s c = applyCardSpec t s c ∧
    0 ≤ (_apply_card t s c).1 ∧
    c ≤ (_apply_card t s c).1 ∧
    (c = 11 → s = false → t ≤ 10 → _apply_card t s c = (t + 11, true)) := by
  refine ⟨rfl, ?_, ?_, ?_⟩
  · unfold _apply_card
    dsimp only
    split_ifs <;> simp_all <;> omega
  · unfold _apply_card
    dsimp only
    split_ifs <;> simp_all <;> omega
  · intro h11 hs h10
    subst h11
    subst hs
    simp [_apply_card, show t + 11 ≤ 21 by omega, show ¬(t + 11 > 21) by omega]

/-- C8 witness: an Ace on a hard 5. -/
theorem claim_C8_witness :
    _apply_card 5 false 11 = applyCardSpec 5 false 11 ∧
    0 ≤ (_apply_card 5 false 11).1 ∧
    (11:ℤ) ≤ (_apply_card 5 false 11).1 ∧
    _apply_card 5 false 11 = (5 + 11, true) := by
  obtain ⟨h1, h2, h3, h4⟩ := claim_C8_apply_card_conforms 5 false 11
    (by decide) (by decide) (by decide)
  exact ⟨h1, h2, h3, h4 rfl rfl (by decide)⟩

/-- C10: `_apply_card` never reports a soft flag together with a total
above 21; hence `compute_total_and_soft` never does either, and the dealer
loop guard, which can only hold at 17 when soft, is false on every busted
total. -/
theorem claim_C10_soft_invariant :
    (∀ (t : Int) (s : Bool) (c : Int),
      (_apply_card t s c).2 = true → (_apply_card t s c).1 ≤ 21) ∧
    (∀ cards : List Int,
      (compute_total_and_soft cards).2 = true → (compute_total_and_soft cards).1 ≤ 21) ∧
    (∀ (t : Int) (s : Bool), 21 < t → dealerShouldHit t s = false) := by
  refine ⟨apply_card_soft_le, compute_total_soft_le, ?_⟩
  intro t s h
  cases hb : dealerShouldHit t s
  · rfl
  · exfalso
    rcases (dealerShouldHit_iff t s).mp hb with h1 | ⟨h1, _⟩ <;> omega

/-- C10 witness: an Ace on 5 stays soft and below 22; a soft 16 computed
from a hand; a busted 22 never passes the dealer guard. -/
theorem claim_C10_witness :
    (_apply_card 5 false 11).1 ≤ 21 ∧
    (compute_total_and_soft [11, 5]).1 ≤ 21 ∧
    dealerShouldHit 22 true = false :=
  ⟨claim_C10_soft_invariant.1 5 false 11 (by decide),
   claim_C10_soft_invariant.2.1 [11, 5] (by decide),
   claim_C10_soft_invariant.2.2 22 true (by decide)⟩

/-- C7: the per-hand hit loop terminates on every draw sequence: applying
any card 2..11 to a pre-draw total below 22 strictly decreases
`loopMeasure` (a measure of `(total, isSoft)`), so any two sufficient fuels
compute the same result and the fuel-free `player_hit_loop` is that common
total function. -/
theorem claim_C7_hit_loop_termination :
    (∀ (t : Int) (s : Bool) (c : Int), 2 ≤ c → c ≤ 11 → t < 22 →
      loopMeasure (_apply_card t s c).1 (_apply_card t s c).2 < loopMeasure t s) ∧
    (∀ (f1 f2 : Nat) (a : Action) (t : Int) (s : Bool) (d : Int) (shoe : List Card)
      (g : Nat → Nat) (k : Nat), loopMeasure t s < f1 → loopMeasure t s < f2 →
      player_hit_loopF f1 a t s d shoe g k = player_hit_loopF f2 a t s d shoe g k) ∧
    (∀ (f : Nat) (a : Action) (t : Int) (s : Bool) (d : Int) (shoe : List Card)
      (g : Nat → Nat) (k : Nat), loopMeasure t s < f →
      player_hit_loopF f a t s d shoe g k = player_hit_loop a t s d shoe g k) :=
  ⟨apply_card_measure_lt,
   player_hit_loopF_fuel_irrel,
   fun f a t s d shoe g k hf =>
     player_hit_loopF_fuel_irrel f (loopMeasure t s + 1) a t s d shoe g k hf
       (Nat.lt_succ_self _)⟩

/-- C7 witness: the measure decreases at a concrete draw and two concrete
fuels agree with the fuel-free loop. -/
theorem claim_C7_witness :
    loopMeasure (_apply_card 12 false 5).1 (_apply_card 12 false 5).2 < loopMeasure 12 false ∧
    player_hit_loopF 50 .STAND 12 false 10 [] (fun _ => 0) 0 =
      player_hit_loopF 60 .STAND 12 false 10 [] (fun _ => 0) 0 ∧
    player_hit_loopF 50 .STAND 12 false 10 [] (fun _ => 0) 0 =
      player_hit_loop .STAND 12 false 10 [] (fun _ => 0) 0 :=
  ⟨claim_C7_hit_loop_termination.1 12 false 5 (by decide) (by decide) (by decide),
   claim_C7_hit_loop_termination.2.1 50 60 .STAND 12 false 10 [] (fun _ => 0) 0
     (by decide) (by decide),
   claim_C7_hit_loop_termination.2.2 50 .STAND 12 false 10 [] (fun _ => 0) 0 (by decide)⟩

/-- C3: the dealer draws exactly while `total < 17 or (total == 17 and
isSoft)`: the Boolean guard agrees with that rule, the final state of the
dealer loop always violates it (so the dealer stands on hard 17 and on
18+), and the loop consumes no card if and only if the rule already fails
on entry (so a soft 17 always draws). -/
theorem claim_C3_dealer_drawing_rule :
    ∀ (t : Int) (s : Bool) (shoe : List Card) (g : Nat → Nat) (k : Nat),
      (dealerShouldHit t s = true ↔ (t < 17 ∨ (t = 17 ∧ s = true))) ∧
      dealerShouldHit (dealer_loop t s shoe g k).1 (dealer_loop t s shoe g k).2.1 = false ∧
      ((dealer_loop t s shoe g k).2.2.2 = k ↔ dealerShouldHit t s = false) := by
  intro t s shoe g k
  refine ⟨dealerShouldHit_iff t s, ?_, ?_⟩
  · exact dealer_loopF_stops _ t s shoe g k (Nat.lt_succ_self _)
  · exact dealer_loopF_pos_iff _ t s shoe g k (Nat.lt_succ_self _)

/-- C4: a draw on an exhausted shoe raises the empty-shoe error, the
catch-all at each draw site replaces it with an infinite-deck draw from the
52-card weighted population (four each of ranks 2..9, sixteen tens, four
Aces), and the empty-shoe error is never surfaced out of
`estimate_win_probabilities_multi`. -/
theorem claim_C4_infinite_deck_fallback :
    (deckCards.map Subtype.val = deckValues ∧ deckCards.length = 52 ∧
      deckValues.count 2 = 4 ∧ deckValues.count 3 = 4 ∧ deckValues.count 4 = 4 ∧
      deckValues.count 5 = 4 ∧ deckValues.count 6 = 4 ∧ deckValues.count 7 = 4 ∧
      deckValues.count 8 = 4 ∧ deckValues.count 9 = 4 ∧ deckValues.count 10 = 16 ∧
      deckValues.count 11 = 4) ∧
    (∀ r : Nat, draw_from_shoe [] r = .error (.runtimeError "Shoe is empty")) ∧
    (∀ (g : Nat → Nat) (k : Nat),
      drawWithFallback [] g k = ((_draw_card g k).1, [], (_draw_card g k).2)) ∧
    (∀ (players : List (List Int)) (upcard num_decks simulations : Int) (g : Nat → Nat),
      isRuntimeErr (estimate_win_probabilities_multi players upcard num_decks simulations g) =
        false) :=
  ⟨by decide, fun r => rfl, fun g k => rfl, isRuntimeErr_estimate⟩


/-- C5 counterexample: with `simulations = 1` and `num_decks = 1` — both
valid — `estimate_win_probabilities_multi` still raises a validation error,
because the advisor rejects the one-card hand `[2]` (total 2 < 4) during
the first trial; so the claimed "if and only if" fails. -/
theorem claim_C5_counterexample :
    estimate_win_probabilities_multi [[2]] 5 1 1 (fun _ => 0) =
      .error (.valueError "player_total must be between 4 and 21") ∧
    decide ((1:Int) < 1 ∨ (1:Int) < 1) = false :=
  ⟨rfl, rfl⟩

/-- C5 (amended): `estimate_win_probabilities_multi` raises its
`num_decks`/`simulations` validation errors before any trial whenever
`num_decks < 1`, or `num_decks ≥ 1` and `simulations < 1`; and every error
it surfaces is a validation error (`ValueError`), never the internally
recovered empty-shoe `RuntimeError` — but validation errors can also arise
during trials from the advisor's range checks. -/
theorem claim_C5_validation (players : List (List Int))
    (upcard num_decks simulations : Int) (g : Nat → Nat) :
    (num_decks ≤ 0 →
      estimate_win_probabilities_multi players upcard num_decks simulations g =
        .error (.valueError "num_decks must be >= 1 for finite-shoe simulation")) ∧
    (0 < num_decks → simulations ≤ 0 →
      estimate_win_probabilities_multi players upcard num_decks simulations g =
        .error (.valueError "simulations must be > 0")) ∧
    (∀ e, estimate_win_probabilities_multi players upcard num_decks simulations g = .error e →
       isRuntimeBJ e = false) := by
  refine ⟨?_, ?_, estimate_error players upcard num_decks simulations g⟩
  · intro h
    unfold estimate_win_probabilities_multi
    rw [if_pos h]
  · intro h1 h2
    unfold estimate_win_probabilities_multi
    rw [if_neg (by omega), if_pos h2]

/-- C5 witness: the two validation errors fire at concrete bad inputs, and
a concrete surfaced error is a `ValueError`. -/
theorem claim_C5_witness :
    estimate_win_probabilities_multi [] 10 0 5 (fun _ => 0) =
      .error (.valueError "num_decks must be >= 1 for finite-shoe simulation") ∧
    estimate_win_probabilities_multi [] 10 1 0 (fun _ => 0) =
      .error (.valueError "simulations must be > 0") ∧
    isRuntimeBJ (.valueError "player_total must be between 4 and 21") = false :=
  ⟨(claim_C5_validation [] 10 0 5 (fun _ => 0)).1 (by decide),
   (claim_C5_validation [] 10 1 0 (fun _ => 0)).2.1 (by decide) (by decide),
   (claim_C5_validation [[2]] 5 1 1 (fun _ => 0)).2.2
     (.valueError "player_total must be between 4 and 21") rfl⟩

/-- C9 counterexample: on a shoe holding two fives, removing `[5]` and then
removing `[5]` again is not a no-op — the second pass removes the second
five. -/
theorem claim_C9_counterexample :
    remove_known_cards [(⟨5, by decide⟩ : Card), ⟨5, by decide⟩] [5] =
      [(⟨5, by decide⟩ : Card)] ∧
    remove_known_cards
        (remove_known_cards [(⟨5, by decide⟩ : Card), ⟨5, by decide⟩] [5]) [5] = [] ∧
    decide (remove_known_cards
        (remove_known_cards [(⟨5, by decide⟩ : Card), ⟨5, by decide⟩] [5]) [5] =
      remove_known_cards [(⟨5, by decide⟩ : Card), ⟨5, by decide⟩] [5]) = false :=
  ⟨rfl, rfl, by decide⟩

/-- C9 (amended): `remove_known_cards` removes one occurrence per listed
element when present and never raises — the count of a rank after removal
is its count before minus the number of listed occurrences, truncated at
zero, so a count never goes negative; and a second pass with the same
values is a no-op precisely in the case that the first pass left no
occurrence of any listed value in the shoe. -/
theorem claim_C9_remove_known :
    (∀ (shoe : List Card) (known : List Int) (v : Int),
      shoeCount v (remove_known_cards shoe known) = shoeCount v shoe - known.count v) ∧
    (∀ (shoe : List Card) (known : List Int),
      (∀ c ∈ remove_known_cards shoe known, c.val ∉ known) →
      remove_known_cards (remove_known_cards shoe known) known =
        remove_known_cards shoe known) := by
  constructor
  · intro shoe known v
    exact shoeCount_remove_known known shoe v
  · intro shoe known h
    exact remove_known_noop known (remove_known_cards shoe known) h

/-- C9 witness: removing `[5]` twice from a shoe without a five is a no-op. -/
theorem claim_C9_witness :
    remove_known_cards (remove_known_cards [(⟨2, by decide⟩ : Card)] [5]) [5] =
      remove_known_cards [(⟨2, by decide⟩ : Card)] [5] :=
  claim_C9_remove_known.2 [⟨2, by decide⟩] [5] (by decide)


/-- C1 counterexample: a concrete two-trial run returns the dealer-total
and hidden-card Counters with raw occurrence counts (here the count 2 at
dealer total 18 and at hidden rank 2), not fractions divided by
`simulations`: 2 is neither 2/2 nor in [0,1]. Only the per-player triples
are divided. -/
theorem claim_C1_counterexample :
    estimate_win_probabilities_multi [[10, 10]] 10 1 2 (fun _ => 0) =
      .ok ([(((2:ℕ):ℚ)/((2:Int):ℚ), ((0:ℕ):ℚ)/((2:Int):ℚ), ((0:ℕ):ℚ)/((2:Int):ℚ))],
           ({18, 18} : Multiset ℤ), ({2, 2} : Multiset ℤ)) ∧
    Multiset.count 18 ({18, 18} : Multiset ℤ) = 2 ∧
    Multiset.count 2 ({2, 2} : Multiset ℤ) = 2 ∧
    decide ((2:ℚ) ≤ 1) = false :=
  ⟨rfl, by decide, by decide, by decide⟩

/-- C1 (amended): after a successful run with `simulations = S`, each
per-player triple is finalized by dividing the integer counters by `S`,
while the returned dealer-final-total mapping and hidden-card-rank mapping
hold raw occurrence counts — one record per trial, total mass exactly
`S.toNat` each — and are not divided by `S`. -/
theorem claim_C1_counters_finalization (players : List (List Int))
    (upcard num_decks simulations : Int) (g : Nat → Nat)
    (out : List (ℚ × ℚ × ℚ) × Multiset Int × Multiset Int)
    (h : estimate_win_probabilities_multi players upcard num_decks simulations g = .ok out) :
    Multiset.card out.2.1 = simulations.toNat ∧
    Multiset.card out.2.2 = simulations.toNat ∧
    (∀ r ∈ out.1, ∃ w p l : Nat,
        w + p + l = simulations.toNat ∧
        r = ((w : ℚ) / (simulations : ℚ), (p : ℚ) / (simulations : ℚ),
             (l : ℚ) / (simulations : ℚ))) := by
  obtain ⟨-, -, h3, h4, -, h6⟩ := estimate_ok_spec players upcard num_decks simulations g out h
  exact ⟨h3, h4, h6⟩

/-- C1 witness: the two-trial run records two dealer totals. -/
theorem claim_C1_witness :
    Multiset.card ({18, 18} : Multiset ℤ) = (2:Int).toNat :=
  (claim_C1_counters_finalization [[10, 10]] 10 1 2 (fun _ => 0)
    ([(((2:ℕ):ℚ)/((2:Int):ℚ), ((0:ℕ):ℚ)/((2:Int):ℚ), ((0:ℕ):ℚ)/((2:Int):ℚ))],
     ({18, 18} : Multiset ℤ), ({2, 2} : Multiset ℤ)) rfl).1

/-- C6: a successful run with `simulations = S` returns one triple per
player; every returned triple is `(w/S, p/S, l/S)` for integer counters
with `w + p + l = S` exactly — each trial increments exactly one of the
three — and therefore sums to 1. -/
theorem claim_C6_outcome_partition (players : List (List Int))
    (upcard num_decks simulations : Int) (g : Nat → Nat)
    (out : List (ℚ × ℚ × ℚ) × Multiset Int × Multiset Int)
    (h : estimate_win_probabilities_multi players upcard num_decks simulations g = .ok out) :
    out.1.length = players.length ∧
    (∀ r ∈ out.1, r.1 + r.2.1 + r.2.2 = 1) ∧
    (∀ r ∈ out.1, ∃ w p l : Nat, w + p + l = simulations.toNat ∧
        r = ((w : ℚ) / (simulations : ℚ), (p : ℚ) / (simulations : ℚ),
             (l : ℚ) / (simulations : ℚ))) := by
  obtain ⟨hd, hs, -, -, h5, h6⟩ := estimate_ok_spec players upcard num_decks simulations g out h
  refine ⟨h5, ?_, h6⟩
  intro r hr
  obtain ⟨w, p, l, hsum, hre⟩ := h6 r hr
  subst hre
  dsimp only
  have hq : (simulations : ℚ) ≠ 0 := by
    exact_mod_cast (by omega : simulations ≠ 0)
  rw [div_add_div_same, div_add_div_same]
  have hcast : ((w : ℚ) + (p : ℚ) + (l : ℚ)) = ((simulations.toNat : ℕ) : ℚ) := by
    rw [← hsum]
    push_cast
    ring
  rw [hcast]
  have hcast2 : ((simulations.toNat : ℕ) : ℚ) = (simulations : ℚ) := by
    have h0 : ((simulations.toNat : ℕ) : ℤ) = simulations := Int.toNat_of_nonneg (by omega)
    exact_mod_cast congrArg (fun z : ℤ => (z : ℚ)) h0
  rw [hcast2]
  exact div_self hq

/-- C6 witness: the single player's returned triple from a concrete
two-trial run sums to 1. -/
theorem claim_C6_witness :
    (((2:ℕ):ℚ)/((2:Int):ℚ), ((0:ℕ):ℚ)/((2:Int):ℚ), ((0:ℕ):ℚ)/((2:Int):ℚ)).1 +
      (((2:ℕ):ℚ)/((2:Int):ℚ), ((0:ℕ):ℚ)/((2:Int):ℚ), ((0:ℕ):ℚ)/((2:Int):ℚ)).2.1 +
      (((2:ℕ):ℚ)/((2:Int):ℚ), ((0:ℕ):ℚ)/((2:Int):ℚ), ((0:ℕ):ℚ)/((2:Int):ℚ)).2.2 = 1 :=
  (claim_C6_outcome_partition [[10, 10]] 10 1 2 (fun _ => 0)
    ([(((2:ℕ):ℚ)/((2:Int):ℚ), ((0:ℕ):ℚ)/((2:Int):ℚ), ((0:ℕ):ℚ)/((2:Int):ℚ))],
     ({18, 18} : Multiset ℤ), ({2, 2} : Multiset ℤ)) rfl).2.1
    (((2:ℕ):ℚ)/((2:Int):ℚ), ((0:ℕ):ℚ)/((2:Int):ℚ), ((0:ℕ):ℚ)/((2:Int):ℚ))
    (List.mem_singleton.mpr rfl)

end BJ
